import Mathlib

/-!
Shallow embedding of the rendering core of the `mothra` 2D game engine
(`src/ecs.rs`, `src/asset_manager.rs`, `src/renderer.rs`, `src/config.rs`).

Modelling conventions:
* `f32` values are modelled as rationals (`ℚ`); the special value NaN, which
  matters only for `Transform.z` (the sort comparator calls
  `f32::partial_cmp(..).unwrap()` on `z` and panics on NaN), is modelled by
  wrapping `z` in `Option`: `none` is NaN, `some q` is an ordinary float.
* `Rc<TextureHandle>` is modelled by its identity (`Rc::as_ptr`), a `Nat`;
  the GPU allocator hands out fresh identities so distinct allocations have
  distinct identities.
* `HashMap` is modelled as an association list with overwrite-on-insert
  (`upsert`); iteration order of the model is list order, and no theorem
  below depends on a particular iteration order.
* Machine-integer overflow (`u32` entity counter, `u16` vertex counter) is
  modelled with Rust's checked (debug) semantics: an overflowing `+=` is a
  panic, represented by `Option`/`none`.
* Panics (`unwrap`, `expect`) are modelled as `Option.none` or an explicit
  `panicked` result constructor.
-/

/-- Model of `f32` restricted to what the claims need: `some q` is an
ordinary (non-NaN) float value modelled as a rational, `none` is NaN. -/
abbrev Fl : Type := Option ℚ

/-- Model of `f32::partial_cmp` (`ecs.rs:76`, `renderer.rs:579`): a total
comparison on ordinary values, `none` as soon as either side is NaN. -/
def Fl.fcmp (x y : Fl) : Option Ordering :=
  match x, y with
  | some a, some b => some (if a < b then Ordering.lt else if a = b then Ordering.eq else Ordering.gt)
  | _, _ => none

/-- `ecs.rs:7`: `pub type Entity = u32` (a plain integer identifier). -/
abbrev Entity : Type := Nat

/-- `ecs.rs:11-17`: position, size and manual paint-order scalar of an
entity. All fields are `f32`; `z` keeps the NaN case because the sort
comparator can panic on it. -/
structure Transform where
  x : ℚ
  y : ℚ
  w : ℚ
  h : ℚ
  z : Fl
deriving DecidableEq

/-- `ecs.rs:20-22`: a sprite holds one shared reference to a
`TextureHandle`; the model keeps the reference's identity. -/
structure Sprite where
  texture : Nat
deriving DecidableEq

/-- Association-list lookup modelling `HashMap::get`. -/
def alookup {κ α : Type} [DecidableEq κ] : List (κ × α) → κ → Option α
  | [], _ => none
  | (k, v) :: t, q => if k = q then some v else alookup t q

/-- Association-list insert modelling `HashMap::insert`: overwrite the
existing binding if the key is present, otherwise add a new one. -/
def upsert {κ α : Type} [DecidableEq κ] : List (κ × α) → κ → α → List (κ × α)
  | [], k, v => [(k, v)]
  | (k', v') :: t, k, v => if k' = k then (k, v) :: t else (k', v') :: upsert t k v

/-- `ecs.rs:25-29`: the entity/component store. -/
structure World where
  next_entity : Entity
  transforms : List (Entity × Transform)
  sprites : List (Entity × Sprite)

/-- `ecs.rs:33-39`: `World::new`. -/
def World.new : World := ⟨0, [], []⟩

/-- `ecs.rs:42-46`: `World::spawn` returns the current counter value and
increments it. The counter is a `u32`; the increment is modelled with
checked (debug) overflow semantics, so an increment past `u32::MAX`
panics (`none`) instead of completing. -/
def World.spawn (w : World) : Option (Entity × World) :=
  if (w.next_entity : Nat) + 1 < 4294967296 then
    some (w.next_entity, { w with next_entity := (w.next_entity : Nat) + 1 })
  else
    none

/-- `ecs.rs:49-51`: `World::add_transform` upserts into the transform map. -/
def World.add_transform (w : World) (entity : Entity) (transform : Transform) : World :=
  { w with transforms := upsert w.transforms entity transform }

/-- `ecs.rs:54-56`: `World::add_sprite` upserts into the sprite map. -/
def World.add_sprite (w : World) (entity : Entity) (sprite : Sprite) : World :=
  { w with sprites := upsert w.sprites entity sprite }

/-- A drawable as produced by the queries: a `Transform` together with the
identity of the shared `TextureHandle`. -/
abbrev Drawable : Type := Transform × Nat

/-- `ecs.rs:59-66`: `World::query_drawables` — every entity present in both
maps yields its `(Transform, texture reference)` pair. -/
def World.query_drawables (w : World) : List Drawable :=
  w.transforms.filterMap fun p =>
    (alookup w.sprites p.1).map fun s => (p.2, s.texture)

/-- The comparator of `ecs.rs:76` and `renderer.rs:579`:
`t1.z.partial_cmp(&t2.z)`, `none` when either `z` is NaN. -/
def zCmp (a b : Drawable) : Option Ordering :=
  Fl.fcmp a.1.z b.1.z

/-- One insertion step of the model of `slice::sort_by` with a panicking
comparator: insert `a` into an already-sorted list, propagating a comparator
panic as `none`. -/
def orderedInsertM (a : Drawable) : List Drawable → Option (List Drawable)
  | [] => some [a]
  | b :: l =>
    match zCmp a b with
    | none => none
    | some o =>
      if o = Ordering.gt then (orderedInsertM a l).map (fun t => b :: t)
      else some (a :: b :: l)

/-- Model of `slice::sort_by(|a, b| a.z.partial_cmp(&b.z).unwrap())`
(`ecs.rs:76`, `renderer.rs:579`): a stable comparison sort in the `Option`
monad; `none` models the `unwrap` panic when the comparator meets a NaN. -/
def sortByZ : List Drawable → Option (List Drawable)
  | [] => some []
  | a :: l => (sortByZ l).bind (orderedInsertM a)

/-- `ecs.rs:70-78`: `World::query_drawables_with_z` — collect the drawable
pairs exactly as `query_drawables` does, then sort them ascending by `z`
with the panicking comparator. -/
def World.query_drawables_with_z (w : World) : Option (List Drawable) :=
  sortByZ w.query_drawables

/-- The `≤`-on-`z` relation (as a Bool) that the sorted output satisfies;
false whenever either side is NaN. -/
def zleB (a b : Drawable) : Bool :=
  match a.1.z, b.1.z with
  | some qa, some qb => decide (qa ≤ qb)
  | _, _ => false

/-- Model of the decoded image the `image` crate hands back
(`asset_manager.rs:30-31`): only its dimensions matter to the core. -/
structure Img where
  width : Nat
  height : Nat

/-- The file system as seen by `image::open`: `none` models an unreadable
path or an unsupported format (which make `image::open` return `Err`). -/
def Disk : Type := String → Option Img

/-- The file system as seen by `std::fs::read_to_string` in `load_shader`
(`asset_manager.rs:81`). -/
def ShaderDisk : Type := String → Option String

/-- GPU-side allocation state shared by the device and queue: `nextId` is
the identity (`Rc::as_ptr` model) the next created object gets, so every
allocation is fresh; `workOps` counts GPU resource operations
(`create_texture`, `write_texture`, `create_view`, `create_sampler`,
`create_shader_module`, ...). -/
structure Gpu where
  nextId : Nat
  workOps : Nat
deriving DecidableEq

/-- `asset_manager.rs:10-13`: path-keyed caches of shared texture handles
and shader modules, each cached object represented by its identity. -/
structure AssetManager where
  textures : List (String × Nat)
  shaders : List (String × Nat)
deriving DecidableEq

/-- `asset_manager.rs:17-22`: `AssetManager::new`. -/
def AssetManager.new : AssetManager := ⟨[], []⟩

/-- Outcome of a fallible call: either a value returned to the caller, or a
process-aborting panic (Rust `expect`). -/
inductive LoadResult (α : Type) where
  | ok (v : α)
  | panicked (msg : String)
deriving DecidableEq

/-- `asset_manager.rs:25-74`: `AssetManager::load_texture`. On a cache hit
it returns `Rc::clone` of the stored handle, touching neither the cache nor
the GPU. On a miss it decodes the image — `image::open(path).expect(..)`
panics if the disk cannot produce an image — then creates the texture,
uploads the pixels, creates view and sampler (4 GPU operations on a fresh
identity), stores the handle under the exact path string and returns it.
The state at the moment of a panic is returned alongside `panicked`. -/
def AssetManager.load_texture (am : AssetManager) (gpu : Gpu) (disk : Disk)
    (path : String) : LoadResult Nat × AssetManager × Gpu :=
  match alookup am.textures path with
  | some texture => (.ok texture, am, gpu)
  | none =>
    match disk path with
    | none => (.panicked "Failed to open image", am, gpu)
    | some _img =>
      let handle := gpu.nextId
      (.ok handle,
       { am with textures := upsert am.textures path handle },
       { nextId := gpu.nextId + 1, workOps := gpu.workOps + 4 })

/-- `asset_manager.rs:77-89`: `AssetManager::load_shader` — the same
memoization over compiled shader modules;
`std::fs::read_to_string(path).expect(..)` panics on an unreadable path,
otherwise one GPU operation (`create_shader_module`) on a fresh identity. -/
def AssetManager.load_shader (am : AssetManager) (gpu : Gpu) (sdisk : ShaderDisk)
    (path : String) : LoadResult Nat × AssetManager × Gpu :=
  match alookup am.shaders path with
  | some shader => (.ok shader, am, gpu)
  | none =>
    match sdisk path with
    | none => (.panicked "Failed to read shader file", am, gpu)
    | some _src =>
      let handle := gpu.nextId
      (.ok handle,
       { am with shaders := upsert am.shaders path handle },
       { nextId := gpu.nextId + 1, workOps := gpu.workOps + 1 })

/-- All identities stored in either cache. -/
def AssetManager.ids (am : AssetManager) : List Nat :=
  am.textures.map Prod.snd ++ am.shaders.map Prod.snd

/-- Well-formedness of a cache/GPU pair: cached identities are pairwise
distinct and all below the allocator's next fresh identity. Holds for
`AssetManager.new` with any fresh GPU and is preserved by both load
operations. -/
def AssetManager.wf (am : AssetManager) (gpu : Gpu) : Prop :=
  am.ids.Nodup ∧ ∀ h ∈ am.ids, h < gpu.nextId

/-- `config.rs:3-19`: engine configuration. -/
structure GameConfig where
  window_width : Nat
  window_height : Nat
  logical_width : Nat
  logical_height : Nat
  title : String
  target_fps : Nat
  stretch_mode : Bool

/-- The renderer state that `Renderer::resize` touches
(`renderer.rs:19-46`): the stored surface configuration, the contents of
the projection-scale uniform buffer, and how many times the surface has
been (re)configured. -/
structure Renderer where
  config_width : Nat
  config_height : Nat
  uniform : ℚ × ℚ
  configure_count : Nat
deriving DecidableEq

/-- `renderer.rs:300-316`: `Renderer::resize`. Nothing happens unless both
dimensions are positive; otherwise the surface configuration is updated and
reconfigured and the uniform is rewritten from `stretch_mode`. -/
def Renderer.resize (r : Renderer) (new_width new_height : Nat)
    (config : GameConfig) : Renderer :=
  if new_width > 0 ∧ new_height > 0 then
    { config_width := new_width
      config_height := new_height
      uniform :=
        if config.stretch_mode then
          ((2 : ℚ) / new_width, (2 : ℚ) / new_height)
        else
          ((2 : ℚ) / config.logical_width, (2 : ℚ) / config.logical_height)
      configure_count := r.configure_count + 1 }
  else
    r

/-- `renderer.rs:587-591`: a batch under construction — the texture
identity key and the drawables appended to it. -/
structure Batch where
  texture_ptr : Nat
  drawables : List Drawable
deriving DecidableEq

/-- Loop body state of `renderer.rs:592-605`, expressed with the current
(last) batch held separately: append the drawable to the current batch when
its texture identity equals the batch key, otherwise close the current
batch and open a new one keyed by the new identity. -/
def makeBatchesAux (cur : Batch) : List Drawable → List Batch
  | [] => [cur]
  | d :: rest =>
    if d.2 = cur.texture_ptr then
      makeBatchesAux { cur with drawables := cur.drawables ++ [d] } rest
    else
      cur :: makeBatchesAux ⟨d.2, [d]⟩ rest

/-- `renderer.rs:592-605`: fold the z-sorted drawables into contiguous
batches keyed by `Rc::as_ptr` texture identity. -/
def makeBatches : List Drawable → List Batch
  | [] => []
  | d :: rest => makeBatchesAux ⟨d.2, [d]⟩ rest

/-- A vertex as pushed at `renderer.rs:651-654`: `(x, y, u, v)`. -/
abbrev Vtx : Type := ℚ × ℚ × ℚ × ℚ

/-- `renderer.rs:623-629`: per-batch draw-call record. `texture_bg` (the
bind group built from `batch.drawables[0].1`) is modelled by the identity
of that texture handle. Offsets are in bytes, counts in elements, exactly
as computed at `renderer.rs:664-676`. -/
structure BatchDrawCall where
  texture_bg : Nat
  vertex_offset : Nat
  vertex_count : Nat
  index_offset : Nat
  index_count : Nat
deriving DecidableEq

/-- Checked `u16` addition: `vertex_count_total` is a `u16`
(`renderer.rs:631`), so arithmetic past `u16::MAX` panics (debug
semantics), modelled as `none`. -/
def u16add (a b : Nat) : Option Nat :=
  if a + b < 65536 then some (a + b) else none

/-- `renderer.rs:649-663`: push one drawable's quad — four vertices
(top-left, top-right, bottom-right, bottom-left) and six indices
`vct, vct+1, vct+2, vct+2, vct+3, vct` where `vct` is the global running
`vertex_count_total`, which then advances by 4. -/
def pushQuad (acc : List Vtx × List Nat × Nat) (d : Drawable) :
    Option (List Vtx × List Nat × Nat) :=
  let t := d.1
  let vs := acc.1
  let is := acc.2.1
  let vct := acc.2.2
  (u16add vct 1).bind fun i1 =>
  (u16add vct 2).bind fun i2 =>
  (u16add vct 3).bind fun i3 =>
  (u16add vct 4).map fun vct' =>
    (vs ++ [(t.x, t.y + t.h, 0, 0), (t.x + t.w, t.y + t.h, 1, 0),
            (t.x + t.w, t.y, 1, 1), (t.x, t.y, 0, 1)],
     is ++ [vct, i1, i2, i2, i3, vct],
     vct')

/-- `renderer.rs:633-677`: process one batch — remember the global vertex
element offset, push every drawable's quad, then record the draw call with
byte offsets and element counts (`renderer.rs:664-676`). -/
def processBatch (acc : List Vtx × List Nat × Nat × List BatchDrawCall)
    (b : Batch) : Option (List Vtx × List Nat × Nat × List BatchDrawCall) :=
  let vs := acc.1
  let is := acc.2.1
  let vct := acc.2.2.1
  let dcs := acc.2.2.2
  let batch_vertex_offset_elements := vs.length
  (b.drawables.foldlM pushQuad (vs, is, vct)).map fun r =>
    let vertex_offset_bytes := batch_vertex_offset_elements * 16
    let batch_index_offset_elements := r.2.1.length - b.drawables.length * 6
    let index_offset_bytes := batch_index_offset_elements * 2
    (r.1, r.2.1, r.2.2,
     dcs ++ [{ texture_bg := b.texture_ptr
               vertex_offset := vertex_offset_bytes
               vertex_count := b.drawables.length * 4
               index_offset := index_offset_bytes
               index_count := b.drawables.length * 6 }])

/-- The per-frame data `draw_sprites_batched` aggregates: the global
vertex/index scratch lists and the recorded draw calls
(`renderer.rs:619-677`). -/
structure FrameData where
  vertices : List Vtx
  indices : List Nat
  drawCalls : List BatchDrawCall
deriving DecidableEq

/-- Steps (2)-(3) of `renderer.rs:586-677`: batch the (already z-sorted)
drawables and aggregate vertices, indices and draw calls. -/
def buildFrame (ds : List Drawable) : Option FrameData :=
  ((makeBatches ds).foldlM processBatch ([], [], 0, [])).map fun r =>
    ⟨r.1, r.2.1, r.2.2.2⟩

/-- The drawable list `draw_sprites_batched` feeds into batching: the
result of `query_drawables_with_z` sorted a second time
(`renderer.rs:578-579`); `none` if either sort's comparator panics. -/
def World.dsbSorted (w : World) : Option (List Drawable) :=
  w.query_drawables_with_z.bind sortByZ

/-- `renderer.rs:567-724`: `Renderer::draw_sprites_batched` as observed
through its outputs: the aggregated frame data written to the active
buffer-pool slot. -/
def World.draw_sprites_batched (w : World) : Option FrameData :=
  w.dsbSorted.bind buildFrame

/-- The buffer-pool part of the renderer state: `current_buffer`
(`renderer.rs:42`), initialised to 0 by `Renderer::new`
(`renderer.rs:286`). -/
structure RenderSt where
  current_buffer : Nat
deriving DecidableEq

/-- `renderer.rs:286`: fresh renderer starts at slot 0. -/
def RenderSt.init : RenderSt := ⟨0⟩

/-- `renderer.rs:318-348`: one call of `Renderer::render` on a world: the
frame is built and written into slot `current_buffer`
(`renderer.rs:687-689`), the commands are submitted, and only after the
GPU-completion wait is `current_buffer` flipped by
`(current_buffer + 1) % 2` (`renderer.rs:346`, the array length is 2).
Returns the slot the writes used together with the post-frame state;
`none` if the frame panicked inside `draw_sprites_batched` (in which case
no flip happens, since the flip comes last). -/
def RenderSt.render (rs : RenderSt) (w : World) :
    Option ((FrameData × Nat) × RenderSt) :=
  w.draw_sprites_batched.map fun f =>
    ((f, rs.current_buffer), ⟨(rs.current_buffer + 1) % 2⟩)

/-- Run `Renderer::render` over consecutive frames, collecting the slot
index observed by each completed frame's buffer writes. -/
def RenderSt.renderMany (rs : RenderSt) : List World → Option (List Nat × RenderSt)
  | [] => some ([], rs)
  | w :: ws =>
    (rs.render w).bind fun r =>
      (r.2.renderMany ws).map fun t => (r.1.2 :: t.1, t.2)

/-- One operation of the public entity API (`ecs.rs:42-56`). -/
inductive WorldOp where
  | spawn
  | addTransform (e : Entity) (t : Transform)
  | addSprite (e : Entity) (s : Sprite)

/-- Run a sequence of entity-API operations, collecting the identifier each
`spawn` returned; `none` if a `spawn` panicked on counter overflow. -/
def runOps : World → List WorldOp → Option (List Entity × World)
  | w, [] => some ([], w)
  | w, WorldOp.spawn :: ops =>
    w.spawn.bind fun r =>
      (runOps r.2 ops).map fun t => (r.1 :: t.1, t.2)
  | w, WorldOp.addTransform e t :: ops => runOps (w.add_transform e t) ops
  | w, WorldOp.addSprite e s :: ops => runOps (w.add_sprite e s) ops

/-- The `≤`-on-`z` ordering as a proposition. -/
def zle (a b : Drawable) : Prop := zleB a b = true

instance (a b : Drawable) : Decidable (zle a b) := by unfold zle; infer_instance

/-- Removal of every entry with a given key, used to state that an entity
without one of the two components contributes nothing to the queries. -/
def removeKey {κ α : Type} [DecidableEq κ] : List (κ × α) → κ → List (κ × α)
  | [], _ => []
  | p :: t, e => if p.1 = e then removeKey t e else p :: removeKey t e

/-- A disk on which no path yields a decodable image. -/
def noDisk : Disk := fun _ => none

/-- A disk on which every path decodes to a 1×1 image. -/
def allDisk : Disk := fun _ => some ⟨1, 1⟩

/-- A shader disk on which every path reads successfully. -/
def allSDisk : ShaderDisk := fun _ => some "wgsl"

/-- `GameConfig` of `examples/test_sprite_z.rs:59-67`: logical 800×600,
`stretch_mode = false`. -/
def cfgFixed : GameConfig := ⟨800, 600, 800, 600, "Test", 60, false⟩

/-- The same configuration with `stretch_mode = true`. -/
def cfgStretch : GameConfig := ⟨800, 600, 800, 600, "Test", 60, true⟩

/-- A renderer state as produced by startup at logical 800×600. -/
def rInit : Renderer := ⟨800, 600, (1/400, 1/300), 0⟩

/-- A harmless concrete transform used by concrete instances. -/
def t0 : Transform := ⟨0, 0, 0, 0, some 0⟩

/-- The world of `examples/test_sprite_z.rs:35-44`: three drawable entities
with z values 0.2, 0.5, 0.8 inserted in order 0.2, 0.8, 0.5; entities 0 and
2 share one texture identity (5), entity 1 has another (6). -/
def c3World : World :=
  ⟨3,
   [(0, ⟨100, 100, 200, 200, some (1/5)⟩),
    (1, ⟨200, 200, 200, 200, some (4/5)⟩),
    (2, ⟨150, 150, 200, 200, some (1/2)⟩)],
   [(0, ⟨5⟩), (1, ⟨6⟩), (2, ⟨5⟩)]⟩

/-- A world containing a drawable whose `z` is NaN next to an ordinary
drawable, so the sort comparator is invoked on the NaN. -/
def nanWorld : World :=
  ⟨2,
   [(0, ⟨0, 0, 1, 1, none⟩), (1, ⟨0, 0, 1, 1, some 0⟩)],
   [(0, ⟨3⟩), (1, ⟨3⟩)]⟩

/-- A two-batch frame input: two quads with different texture identities
(so the batcher closes the first batch and opens a second). -/
def c1Drawables : List Drawable := [(⟨0, 0, 1, 1, some 0⟩, 7), (⟨2, 0, 1, 1, some 1⟩, 9)]

/-- The frame data `draw_sprites_batched` aggregates for `c1Drawables`. -/
def c1Frame : FrameData :=
  ⟨[(0, 1, 0, 0), (1, 1, 1, 0), (1, 0, 1, 1), (0, 0, 0, 1),
    (2, 1, 0, 0), (3, 1, 1, 0), (3, 0, 1, 1), (2, 0, 0, 1)],
   [0, 1, 2, 2, 3, 0, 4, 5, 6, 6, 7, 4],
   [⟨7, 0, 4, 0, 6⟩, ⟨9, 64, 4, 12, 6⟩]⟩

/-- The frame data aggregated for three same-texture quads followed by one
quad with a different texture. -/
def c4Frame (t1 t2 t3 t4 : Transform) (k1 k2 : Nat) : FrameData :=
  ⟨[(t1.x, t1.y + t1.h, 0, 0), (t1.x + t1.w, t1.y + t1.h, 1, 0),
    (t1.x + t1.w, t1.y, 1, 1), (t1.x, t1.y, 0, 1),
    (t2.x, t2.y + t2.h, 0, 0), (t2.x + t2.w, t2.y + t2.h, 1, 0),
    (t2.x + t2.w, t2.y, 1, 1), (t2.x, t2.y, 0, 1),
    (t3.x, t3.y + t3.h, 0, 0), (t3.x + t3.w, t3.y + t3.h, 1, 0),
    (t3.x + t3.w, t3.y, 1, 1), (t3.x, t3.y, 0, 1),
    (t4.x, t4.y + t4.h, 0, 0), (t4.x + t4.w, t4.y + t4.h, 1, 0),
    (t4.x + t4.w, t4.y, 1, 1), (t4.x, t4.y, 0, 1)],
   [0, 1, 2, 2, 3, 0, 4, 5, 6, 6, 7, 4, 8, 9, 10, 10, 11, 8, 12, 13, 14, 14, 15, 12],
   [⟨k1, 0, 12, 0, 18⟩, ⟨k2, 192, 4, 36, 6⟩]⟩


theorem zleB_some {a b : Drawable} {qa qb : ℚ} (ha : a.1.z = some qa)
    (hb : b.1.z = some qb) : zleB a b = decide (qa ≤ qb) := by
  unfold zleB
  rw [ha, hb]

theorem zle_of_le {a b : Drawable} {qa qb : ℚ} (ha : a.1.z = some qa)
    (hb : b.1.z = some qb) (h : qa ≤ qb) : zle a b := by
  unfold zle
  rw [zleB_some ha hb]
  exact decide_eq_true h

theorem zle_trans {a b c : Drawable} (hab : zle a b)
    (hbc : zle b c) : zle a c := by
  unfold zle zleB at *
  rcases haz : a.1.z with _ | qa <;> rcases hbz : b.1.z with _ | qb <;>
    rcases hcz : c.1.z with _ | qc <;>
    simp [haz, hbz, hcz] at hab hbc ⊢
  exact le_trans hab hbc

theorem orderedInsertM_spec (a : Drawable) (l : List Drawable)
    (ha : a.1.z.isSome) (hl : ∀ x ∈ l, x.1.z.isSome) (hs : l.Sorted zle) :
    ∃ l', orderedInsertM a l = some l' ∧ l'.Perm (a :: l) ∧ l'.Sorted zle := by
  induction l with
  | nil =>
    exact ⟨[a], rfl, List.Perm.refl _, List.sorted_singleton a⟩
  | cons b t ih =>
    obtain ⟨qa, ha'⟩ := Option.isSome_iff_exists.mp ha
    obtain ⟨qb, hb'⟩ := Option.isSome_iff_exists.mp (hl b (List.mem_cons_self b t))
    have hzcmp : zCmp a b =
        some (if qa < qb then Ordering.lt else if qa = qb then Ordering.eq else Ordering.gt) := by
      simp [zCmp, Fl.fcmp, ha', hb']
    by_cases hle : qa ≤ qb
    · have hne : (if qa < qb then Ordering.lt else if qa = qb then Ordering.eq
          else Ordering.gt) ≠ Ordering.gt := by
        rcases lt_or_eq_of_le hle with h | h <;> simp [h]
      refine ⟨a :: b :: t, ?_, List.Perm.refl _, ?_⟩
      · simp [orderedInsertM, hzcmp, hne]
      · refine List.sorted_cons.mpr ⟨?_, hs⟩
        intro x hx
        rcases List.mem_cons.mp hx with h | h
        · subst h
          exact zle_of_le ha' hb' hle
        · have hbx : zle b x := List.rel_of_sorted_cons hs x h
          exact zle_trans (zle_of_le ha' hb' hle) hbx
    · have hlt : qb < qa := lt_of_not_le hle
      have hgt : (if qa < qb then Ordering.lt else if qa = qb then Ordering.eq
          else Ordering.gt) = Ordering.gt := by
        have h1 : ¬ qa < qb := fun h => hle (le_of_lt h)
        have h2 : ¬ qa = qb := fun h => hle (le_of_eq h)
        simp [h1, h2]
      obtain ⟨l', hins, hperm, hsort⟩ :=
        ih (fun x hx => hl x (List.mem_cons_of_mem b hx)) hs.of_cons
      refine ⟨b :: l', ?_, ?_, ?_⟩
      · simp [orderedInsertM, hzcmp, hgt, hins]
      · exact (hperm.cons b).trans (List.Perm.swap a b t)
      · refine List.sorted_cons.mpr ⟨?_, hsort⟩
        intro x hx
        rcases List.mem_cons.mp (hperm.mem_iff.mp hx) with h | h
        · subst h
          exact zle_of_le hb' ha' (le_of_lt hlt)
        · exact List.rel_of_sorted_cons hs x h

theorem sortByZ_spec (l : List Drawable) (hl : ∀ x ∈ l, x.1.z.isSome) :
    ∃ l', sortByZ l = some l' ∧ l'.Perm l ∧ l'.Sorted zle := by
  induction l with
  | nil => exact ⟨[], rfl, List.Perm.refl _, List.sorted_nil⟩
  | cons a t ih =>
    obtain ⟨l₀, hsort, hperm, hsorted⟩ :=
      ih (fun x hx => hl x (List.mem_cons_of_mem a hx))
    obtain ⟨l', hins, hperm', hsorted'⟩ :=
      orderedInsertM_spec a l₀ (hl a (List.mem_cons_self a t))
        (fun x hx => hl x (List.mem_cons_of_mem a (hperm.mem_iff.mp hx))) hsorted
    refine ⟨l', ?_, hperm'.trans (hperm.cons a), hsorted'⟩
    simp [sortByZ, hsort, hins]

theorem alookup_eq_none {κ α : Type} [DecidableEq κ] {l : List (κ × α)} {k : κ} :
    alookup l k = none ↔ ∀ p ∈ l, p.1 ≠ k := by
  induction l with
  | nil => simp [alookup]
  | cons p t ih =>
    by_cases h : p.1 = k
    · simp [alookup, h]
    · simp [alookup, h, ih]

theorem alookup_mem {κ α : Type} [DecidableEq κ] {l : List (κ × α)} {k : κ} {v : α}
    (h : alookup l k = some v) : (k, v) ∈ l := by
  induction l with
  | nil => simp [alookup] at h
  | cons p t ih =>
    obtain ⟨p1, p2⟩ := p
    by_cases hk : p1 = k
    · rw [alookup, if_pos hk] at h
      rw [hk, Option.some_inj.mp h]
      exact List.mem_cons_self _ _
    · rw [alookup, if_neg hk] at h
      exact List.mem_cons_of_mem _ (ih h)

theorem upsert_of_none {κ α : Type} [DecidableEq κ] {l : List (κ × α)} {k : κ} (v : α)
    (h : alookup l k = none) : upsert l k v = l ++ [(k, v)] := by
  induction l with
  | nil => rfl
  | cons p t ih =>
    obtain ⟨p1, p2⟩ := p
    rw [alookup] at h
    by_cases hk : p1 = k
    · rw [if_pos hk] at h
      exact absurd h (by simp)
    · rw [if_neg hk] at h
      simp only [upsert, if_neg hk, ih h, List.cons_append]

theorem alookup_append_of_none {κ α : Type} [DecidableEq κ] {l1 : List (κ × α)}
    (l2 : List (κ × α)) {k : κ} (h : alookup l1 k = none) :
    alookup (l1 ++ l2) k = alookup l2 k := by
  induction l1 with
  | nil => rfl
  | cons p t ih =>
    obtain ⟨p1, p2⟩ := p
    rw [alookup] at h
    by_cases hk : p1 = k
    · rw [if_pos hk] at h
      exact absurd h (by simp)
    · rw [if_neg hk] at h
      rw [List.cons_append, alookup, if_neg hk]
      exact ih h

theorem alookup_append_of_some {κ α : Type} [DecidableEq κ] {l1 : List (κ × α)}
    (l2 : List (κ × α)) {k : κ} {v : α} (h : alookup l1 k = some v) :
    alookup (l1 ++ l2) k = some v := by
  induction l1 with
  | nil => simp [alookup] at h
  | cons p t ih =>
    obtain ⟨p1, p2⟩ := p
    rw [alookup] at h
    by_cases hk : p1 = k
    · rw [if_pos hk] at h
      rw [List.cons_append, alookup, if_pos hk]
      exact h
    · rw [if_neg hk] at h
      rw [List.cons_append, alookup, if_neg hk]
      exact ih h


theorem alookup_removeKey_ne {κ α : Type} [DecidableEq κ] {l : List (κ × α)} {e k : κ}
    (hne : k ≠ e) : alookup (removeKey l e) k = alookup l k := by
  induction l with
  | nil => rfl
  | cons p t ih =>
    obtain ⟨p1, p2⟩ := p
    by_cases hpe : p1 = e
    · have hpk : ¬ p1 = k := fun h => hne (h ▸ hpe)
      rw [removeKey, if_pos hpe, alookup, if_neg hpk]
      exact ih
    · rw [removeKey, if_neg hpe]
      rw [alookup, alookup]
      by_cases hpk : p1 = k
      · rw [if_pos hpk, if_pos hpk]
      · rw [if_neg hpk, if_neg hpk]
        exact ih

/-- Removing the transform entries of an entity that has no sprite does not
change `query_drawables`: such an entity never contributes a drawable. -/
theorem query_drawables_removeKey_transforms (w : World) (e : Entity)
    (h : alookup w.sprites e = none) :
    World.query_drawables
      { w with transforms := removeKey w.transforms e } =
    w.query_drawables := by
  show (removeKey w.transforms e).filterMap _ = w.transforms.filterMap _
  induction w.transforms with
  | nil => rfl
  | cons p t ih =>
    by_cases hpe : p.1 = e
    · rw [removeKey, if_pos hpe, List.filterMap_cons, hpe, h]
      exact ih
    · rw [removeKey, if_neg hpe, List.filterMap_cons, List.filterMap_cons]
      cases alookup w.sprites p.1 <;> simp [ih]

/-- Removing the sprite entries of an entity that has no transform does not
change `query_drawables`. -/
theorem query_drawables_removeKey_sprites (w : World) (e : Entity)
    (h : alookup w.transforms e = none) :
    World.query_drawables
      { w with sprites := removeKey w.sprites e } =
    w.query_drawables := by
  show w.transforms.filterMap _ = w.transforms.filterMap _
  apply List.filterMap_congr
  intro p hp
  have hpe : p.1 ≠ e := alookup_eq_none.mp h p hp
  rw [alookup_removeKey_ne hpe]

theorem runOps_spawn_ids (ops : List WorldOp) :
    ∀ (w : World) (ids : List Entity) (wf : World),
      runOps w ops = some (ids, wf) →
      (∀ i ∈ ids, w.next_entity ≤ i) ∧ ids.Sorted (· < ·) := by
  induction ops with
  | nil =>
    intro w ids wf h
    simp only [runOps, Option.some_inj, Prod.mk.injEq] at h
    obtain ⟨rfl, rfl⟩ := h
    exact ⟨by simp, List.sorted_nil⟩
  | cons op ops ih =>
    intro w ids wf h
    cases op with
    | spawn =>
      by_cases hg : (w.next_entity : Nat) + 1 < 4294967296
      · simp only [runOps, World.spawn, if_pos hg, Option.some_bind] at h
        rcases Option.map_eq_some'.mp h with ⟨⟨ids', wf'⟩, hrun, heq⟩
        simp only [Prod.mk.injEq] at heq
        obtain ⟨rfl, rfl⟩ := heq
        obtain ⟨hlb, hsorted⟩ := ih _ _ _ hrun
        refine ⟨?_, List.sorted_cons.mpr ⟨?_, hsorted⟩⟩
        · intro i hi
          rcases List.mem_cons.mp hi with rfl | hi
          · exact le_refl _
          · exact le_trans (Nat.le_succ _) (hlb i hi)
        · intro i hi
          exact lt_of_lt_of_le (Nat.lt_succ_self _) (hlb i hi)
      · simp [runOps, World.spawn, if_neg hg] at h
    | addTransform e t =>
      exact ih (w.add_transform e t) ids wf h
    | addSprite e s =>
      exact ih (w.add_sprite e s) ids wf h

theorem nodup_insert_fresh {l1 l2 : List Nat} {n : Nat} (hnd : (l1 ++ l2).Nodup)
    (hlt : ∀ h ∈ l1 ++ l2, h < n) : (l1 ++ n :: l2).Nodup := by
  rw [List.nodup_middle]
  exact List.nodup_cons.mpr ⟨fun hin => absurd (hlt n hin) (lt_irrefl n), hnd⟩

theorem wf_load_texture {am : AssetManager} {gpu : Gpu} {disk : Disk} {p : String}
    {r : LoadResult Nat} {am' : AssetManager} {gpu' : Gpu}
    (hwf : am.wf gpu)
    (h : am.load_texture gpu disk p = (r, am', gpu')) :
    am'.wf gpu' ∧ gpu.nextId ≤ gpu'.nextId ∧
    ∀ hid, r = .ok hid → alookup am'.textures p = some hid ∧ hid ∈ am'.ids := by
  cases hc : alookup am.textures p with
  | some v =>
    simp only [AssetManager.load_texture, hc, Prod.mk.injEq] at h
    obtain ⟨rfl, rfl, rfl⟩ := h
    refine ⟨hwf, le_refl _, ?_⟩
    intro hid hok
    cases hok
    exact ⟨hc, List.mem_append_left _ (List.mem_map_of_mem Prod.snd (alookup_mem hc))⟩
  | none =>
    cases hd : disk p with
    | none =>
      simp only [AssetManager.load_texture, hc, hd, Prod.mk.injEq] at h
      obtain ⟨rfl, rfl, rfl⟩ := h
      exact ⟨hwf, le_refl _, fun hid hok => by cases hok⟩
    | some img =>
      simp only [AssetManager.load_texture, hc, hd, Prod.mk.injEq] at h
      obtain ⟨rfl, rfl, rfl⟩ := h
      have hup : upsert am.textures p gpu.nextId = am.textures ++ [(p, gpu.nextId)] :=
        upsert_of_none _ hc
      have hids : AssetManager.ids { am with textures := upsert am.textures p gpu.nextId } =
          am.textures.map Prod.snd ++ gpu.nextId :: am.shaders.map Prod.snd := by
        simp [AssetManager.ids, hup]
      constructor
      · constructor
        · rw [hids]
          exact nodup_insert_fresh hwf.1 hwf.2
        · rw [hids]
          intro hid hin
          rcases List.mem_append.mp hin with hin | hin
          · exact lt_trans (hwf.2 hid (List.mem_append_left _ hin)) (Nat.lt_succ_self _)
          · rcases List.mem_cons.mp hin with rfl | hin
            · exact Nat.lt_succ_self _
            · exact lt_trans (hwf.2 hid (List.mem_append_right _ hin)) (Nat.lt_succ_self _)
      · refine ⟨Nat.le_succ _, ?_⟩
        intro hid hok
        cases hok
        constructor
        · rw [hup]
          rw [alookup_append_of_none _ hc]
          simp [alookup]
        · rw [hids]
          exact List.mem_append_right _ (List.mem_cons_self _ _)

theorem wf_load_shader {am : AssetManager} {gpu : Gpu} {sdisk : ShaderDisk} {p : String}
    {r : LoadResult Nat} {am' : AssetManager} {gpu' : Gpu}
    (hwf : am.wf gpu)
    (h : am.load_shader gpu sdisk p = (r, am', gpu')) :
    am'.wf gpu' ∧ gpu.nextId ≤ gpu'.nextId ∧
    ∀ hid, r = .ok hid → alookup am'.shaders p = some hid ∧ hid ∈ am'.ids := by
  cases hc : alookup am.shaders p with
  | some v =>
    simp only [AssetManager.load_shader, hc, Prod.mk.injEq] at h
    obtain ⟨rfl, rfl, rfl⟩ := h
    refine ⟨hwf, le_refl _, ?_⟩
    intro hid hok
    cases hok
    exact ⟨hc, List.mem_append_right _ (List.mem_map_of_mem Prod.snd (alookup_mem hc))⟩
  | none =>
    cases hd : sdisk p with
    | none =>
      simp only [AssetManager.load_shader, hc, hd, Prod.mk.injEq] at h
      obtain ⟨rfl, rfl, rfl⟩ := h
      exact ⟨hwf, le_refl _, fun hid hok => by cases hok⟩
    | some src =>
      simp only [AssetManager.load_shader, hc, hd, Prod.mk.injEq] at h
      obtain ⟨rfl, rfl, rfl⟩ := h
      have hup : upsert am.shaders p gpu.nextId = am.shaders ++ [(p, gpu.nextId)] :=
        upsert_of_none _ hc
      have hids : AssetManager.ids { am with shaders := upsert am.shaders p gpu.nextId } =
          (am.textures.map Prod.snd ++ am.shaders.map Prod.snd) ++ [gpu.nextId] := by
        simp [AssetManager.ids, hup]
      constructor
      · constructor
        · rw [hids]
          have : (am.textures.map Prod.snd ++ am.shaders.map Prod.snd) ++ [gpu.nextId] =
              (am.textures.map Prod.snd ++ am.shaders.map Prod.snd) ++ gpu.nextId :: [] := rfl
          rw [this]
          refine nodup_insert_fresh ?_ ?_
          · rw [List.append_nil]
            exact hwf.1
          · rw [List.append_nil]
            exact hwf.2
        · rw [hids]
          intro hid hin
          rcases List.mem_append.mp hin with hin | hin
          · exact lt_trans (hwf.2 hid hin) (Nat.lt_succ_self _)
          · rcases List.mem_singleton.mp hin with rfl
            exact Nat.lt_succ_self _
      · refine ⟨Nat.le_succ _, ?_⟩
        intro hid hok
        cases hok
        constructor
        · rw [hup]
          rw [alookup_append_of_none _ hc]
          simp [alookup]
        · rw [hids]
          exact List.mem_append_right _ (List.mem_singleton_self _)







/-- Claim C10: a call to `Renderer::resize` whose new size has zero width
or zero height is a complete no-op — the stored surface configuration, the
projection-scale uniform and the surface-configuration count are all left
unchanged (`renderer.rs:301` guards the whole body). -/
theorem c10_resize_zero_noop (r : Renderer) (new_width new_height : Nat)
    (config : GameConfig) (h : new_width = 0 ∨ new_height = 0) :
    r.resize new_width new_height config = r := by
  unfold Renderer.resize
  rw [if_neg]
  rcases h with rfl | rfl <;> simp

theorem c10_resize_zero_noop_witness :
    rInit.resize 0 5 cfgFixed = rInit :=
  c10_resize_zero_noop rInit 0 5 cfgFixed (Or.inl rfl)

/-- Claim C5: after any resize to a positive physical size the
projection-scale uniform is `(2/physical_w, 2/physical_h)` in stretch mode
and `(2/logical_w, 2/logical_h)` — independent of the physical size —
otherwise; concretely `(0.0025, 0.00333…) = (1/400, 1/300)` for logical
800×600 without stretch, and `(0.001953125, 0.0026041…) = (1/512, 1/384)`
for stretch mode at 1024×768 (`renderer.rs:300-316`). -/
theorem c5_resize_projection_scale (r : Renderer) (config : GameConfig)
    (new_width new_height : Nat) (hw : 0 < new_width) (hh : 0 < new_height) :
    ((r.resize new_width new_height config).uniform =
      if config.stretch_mode then ((2 : ℚ)/new_width, (2 : ℚ)/new_height)
      else ((2 : ℚ)/config.logical_width, (2 : ℚ)/config.logical_height)) ∧
    (config.stretch_mode = false → config.logical_width = 800 →
      config.logical_height = 600 →
      (r.resize new_width new_height config).uniform = (1/400, 1/300)) ∧
    (config.stretch_mode = true →
      (r.resize 1024 768 config).uniform = (1/512, 1/384)) := by
  unfold Renderer.resize
  refine ⟨?_, ?_, ?_⟩
  · rw [if_pos ⟨hw, hh⟩]
  · intro hs hlw hlh
    rw [if_pos ⟨hw, hh⟩]
    simp only [hs, hlw, hlh, if_false, Bool.false_eq_true]
    norm_num
  · intro hs
    rw [if_pos (by norm_num)]
    simp only [hs, if_true]
    norm_num

theorem c5_resize_projection_scale_witness :
    ((rInit.resize 1024 768 cfgStretch).uniform =
      if cfgStretch.stretch_mode then ((2 : ℚ)/1024, (2 : ℚ)/768)
      else ((2 : ℚ)/cfgStretch.logical_width, (2 : ℚ)/cfgStretch.logical_height)) ∧
    (cfgStretch.stretch_mode = false → cfgStretch.logical_width = 800 →
      cfgStretch.logical_height = 600 →
      (rInit.resize 1024 768 cfgStretch).uniform = (1/400, 1/300)) ∧
    (cfgStretch.stretch_mode = true →
      (rInit.resize 1024 768 cfgStretch).uniform = (1/512, 1/384)) :=
  c5_resize_projection_scale rInit cfgStretch 1024 768 (by decide) (by decide)

/-- Claim C7 (counterexample): with an unreadable path, `load_texture` does
not return a typed error to the caller — it panics
(`image::open(path).expect("Failed to open image")`,
`asset_manager.rs:30`), i.e. the process terminates; the cache and GPU
state are untouched at that point. -/
theorem c7_counterexample :
    AssetManager.new.load_texture ⟨0, 0⟩ noDisk "missing.png" =
      (.panicked "Failed to open image", AssetManager.new, ⟨0, 0⟩) := rfl

/-- Claim C7 (amended): when `load_texture` is called with a path that is
not cached and is unreadable or undecodable, the process panics with
"Failed to open image" instead of returning a typed `AssetError`; the
cache and the GPU state are unchanged at the moment of the panic (the
`expect` precedes every mutation, `asset_manager.rs:30`). -/
theorem c7_load_texture_panics (am : AssetManager) (gpu : Gpu) (disk : Disk)
    (p : String) (hmiss : alookup am.textures p = none) (hbad : disk p = none) :
    am.load_texture gpu disk p = (.panicked "Failed to open image", am, gpu) := by
  simp [AssetManager.load_texture, hmiss, hbad]

theorem c7_load_texture_panics_witness :
    AssetManager.new.load_texture ⟨3, 7⟩ noDisk "a.png" =
      (.panicked "Failed to open image", AssetManager.new, ⟨3, 7⟩) :=
  c7_load_texture_panics AssetManager.new ⟨3, 7⟩ noDisk "a.png" rfl rfl

/-- Claim C8: along any sequence of entity-API operations, the identifiers
returned by `spawn` are strictly increasing (hence never reused within a
run), and `spawn` has no side effect beyond the counter increment: the
transform and sprite mappings are unchanged (`ecs.rs:42-46`; the `u32`
counter increment is modelled with checked overflow semantics, under which
the overflowing increment panics rather than wrapping). -/
theorem c8_spawn_monotonic (ops : List WorldOp) (w : World) (ids : List Entity)
    (wfin : World) (h : runOps w ops = some (ids, wfin)) :
    ids.Sorted (· < ·) ∧ ids.Nodup ∧
    (∀ (w' : World) (i : Entity) (w'' : World), w'.spawn = some (i, w'') →
      i = w'.next_entity ∧ w''.next_entity = w'.next_entity + 1 ∧
      w''.transforms = w'.transforms ∧ w''.sprites = w'.sprites) := by
  obtain ⟨_, hsorted⟩ := runOps_spawn_ids ops w ids wfin h
  refine ⟨hsorted, hsorted.imp (fun hlt => Nat.ne_of_lt hlt), ?_⟩
  intro w' i w'' hsp
  unfold World.spawn at hsp
  by_cases hg : (w'.next_entity : Nat) + 1 < 4294967296
  · rw [if_pos hg] at hsp
    simp only [Option.some_inj, Prod.mk.injEq] at hsp
    obtain ⟨rfl, rfl⟩ := hsp
    exact ⟨rfl, rfl, rfl, rfl⟩
  · rw [if_neg hg] at hsp
    cases hsp


theorem c8_spawn_monotonic_witness :
    [0, 1, 2].Sorted (· < ·) ∧ [0, 1, 2].Nodup ∧
    (∀ (w' : World) (i : Entity) (w'' : World), w'.spawn = some (i, w'') →
      i = w'.next_entity ∧ w''.next_entity = w'.next_entity + 1 ∧
      w''.transforms = w'.transforms ∧ w''.sprites = w'.sprites) :=
  c8_spawn_monotonic
    [WorldOp.spawn, WorldOp.addTransform 0 t0, WorldOp.spawn, WorldOp.spawn]
    World.new [0, 1, 2] ⟨3, [(0, t0)], []⟩ rfl

/-- Claim C6: the active buffer-pool slot is always 0 or 1, each completed
`Renderer::render` call's buffer writes observe the pre-flip slot and the
flip happens exactly once per completed frame (`renderer.rs:346`,
`renderer.rs:687-689`); from a fresh renderer (`current_buffer = 0`,
`renderer.rs:286`), three consecutive completed frames observe the slot
sequence `0, 1, 0`. -/
theorem c6_buffer_slot_alternation (w1 w2 w3 : World) (out : List Nat × RenderSt)
    (h : RenderSt.init.renderMany [w1, w2, w3] = some out) :
    out.1 = [0, 1, 0] ∧
    (∀ (rs : RenderSt) (w : World) (r : (FrameData × Nat) × RenderSt),
      rs.render w = some r →
      r.1.2 = rs.current_buffer ∧
      r.2.current_buffer = (rs.current_buffer + 1) % 2 ∧
      r.2.current_buffer < 2) := by
  constructor
  · cases hf1 : w1.draw_sprites_batched with
    | none => simp [RenderSt.renderMany, RenderSt.render, hf1] at h
    | some f1 =>
      cases hf2 : w2.draw_sprites_batched with
      | none => simp [RenderSt.renderMany, RenderSt.render, hf1, hf2] at h
      | some f2 =>
        cases hf3 : w3.draw_sprites_batched with
        | none => simp [RenderSt.renderMany, RenderSt.render, hf1, hf2, hf3] at h
        | some f3 =>
          simp only [RenderSt.renderMany, RenderSt.render, RenderSt.init, hf1, hf2, hf3,
            Option.map_some', Option.some_bind, Option.map_eq_some', Option.some_inj] at h
          rw [← h]
  · intro rs w r hr
    unfold RenderSt.render at hr
    rcases Option.map_eq_some'.mp hr with ⟨f, _, rfl⟩
    exact ⟨rfl, rfl, Nat.mod_lt _ (by decide)⟩

theorem c6_buffer_slot_alternation_witness :
    (([0, 1, 0], (⟨1⟩ : RenderSt)) : List Nat × RenderSt).1 = [0, 1, 0] ∧
    (∀ (rs : RenderSt) (w : World) (r : (FrameData × Nat) × RenderSt),
      rs.render w = some r →
      r.1.2 = rs.current_buffer ∧
      r.2.current_buffer = (rs.current_buffer + 1) % 2 ∧
      r.2.current_buffer < 2) :=
  c6_buffer_slot_alternation World.new World.new World.new ([0, 1, 0], ⟨1⟩) rfl

/-- Claim C2: starting from a well-formed cache, (1) two `load_texture`
calls with equal path strings return the same handle identity, the second
call leaving cache and GPU state untouched (no new GPU work); (2) two
successful `load_texture` calls with different path strings return
different handle identities; (3)-(4) the same memoization holds for
`load_shader` (`asset_manager.rs:25-89`). -/
theorem c2_asset_cache_identity (am : AssetManager) (gpu : Gpu) (disk : Disk)
    (sdisk : ShaderDisk) (p q : String) (hwf : am.wf gpu) (hpq : p ≠ q) :
    (∀ (h : Nat) (am1 : AssetManager) (g1 : Gpu),
      am.load_texture gpu disk p = (.ok h, am1, g1) →
      am1.load_texture g1 disk p = (.ok h, am1, g1)) ∧
    (∀ (h1 : Nat) (am1 : AssetManager) (g1 : Gpu) (h2 : Nat) (am2 : AssetManager) (g2 : Gpu),
      am.load_texture gpu disk p = (.ok h1, am1, g1) →
      am1.load_texture g1 disk q = (.ok h2, am2, g2) → h1 ≠ h2) ∧
    (∀ (h : Nat) (am1 : AssetManager) (g1 : Gpu),
      am.load_shader gpu sdisk p = (.ok h, am1, g1) →
      am1.load_shader g1 sdisk p = (.ok h, am1, g1)) ∧
    (∀ (h1 : Nat) (am1 : AssetManager) (g1 : Gpu) (h2 : Nat) (am2 : AssetManager) (g2 : Gpu),
      am.load_shader gpu sdisk p = (.ok h1, am1, g1) →
      am1.load_shader g1 sdisk q = (.ok h2, am2, g2) → h1 ≠ h2) := by
  refine ⟨?_, ?_, ?_, ?_⟩
  · intro h am1 g1 heq
    obtain ⟨_, _, hok⟩ := wf_load_texture hwf heq
    obtain ⟨hlook, _⟩ := hok h rfl
    simp [AssetManager.load_texture, hlook]
  · intro h1 am1 g1 h2 am2 g2 heq1 heq2
    obtain ⟨hwf1, _, hok1⟩ := wf_load_texture hwf heq1
    obtain ⟨hlook1, _⟩ := hok1 h1 rfl
    have hmem1 : (p, h1) ∈ am1.textures := alookup_mem hlook1
    cases hc : alookup am1.textures q with
    | some v =>
      simp only [AssetManager.load_texture, hc, Prod.mk.injEq] at heq2
      obtain ⟨hv, rfl, rfl⟩ := heq2
      have hv' : v = h2 := by cases hv; rfl
      subst hv'
      have hmem2 : (q, v) ∈ am1.textures := alookup_mem hc
      intro hcontra
      subst hcontra
      have hnd : (am1.textures.map Prod.snd).Nodup := hwf1.1.of_append_left
      have := List.inj_on_of_nodup_map hnd hmem1 hmem2 rfl
      exact hpq (congrArg Prod.fst this)
    | none =>
      cases hd : disk q with
      | none =>
        simp only [AssetManager.load_texture, hc, hd, Prod.mk.injEq] at heq2
        obtain ⟨hv, _, _⟩ := heq2
        cases hv
      | some img =>
        simp only [AssetManager.load_texture, hc, hd, Prod.mk.injEq] at heq2
        obtain ⟨hv, _, _⟩ := heq2
        have hv' : g1.nextId = h2 := by cases hv; rfl
        have hlt : h1 < g1.nextId :=
          hwf1.2 h1 (List.mem_append_left _ (List.mem_map_of_mem Prod.snd hmem1))
        omega
  · intro h am1 g1 heq
    obtain ⟨_, _, hok⟩ := wf_load_shader hwf heq
    obtain ⟨hlook, _⟩ := hok h rfl
    simp [AssetManager.load_shader, hlook]
  · intro h1 am1 g1 h2 am2 g2 heq1 heq2
    obtain ⟨hwf1, _, hok1⟩ := wf_load_shader hwf heq1
    obtain ⟨hlook1, _⟩ := hok1 h1 rfl
    have hmem1 : (p, h1) ∈ am1.shaders := alookup_mem hlook1
    cases hc : alookup am1.shaders q with
    | some v =>
      simp only [AssetManager.load_shader, hc, Prod.mk.injEq] at heq2
      obtain ⟨hv, rfl, rfl⟩ := heq2
      have hv' : v = h2 := by cases hv; rfl
      subst hv'
      have hmem2 : (q, v) ∈ am1.shaders := alookup_mem hc
      intro hcontra
      subst hcontra
      have hnd : (am1.shaders.map Prod.snd).Nodup := hwf1.1.of_append_right
      have := List.inj_on_of_nodup_map hnd hmem1 hmem2 rfl
      exact hpq (congrArg Prod.fst this)
    | none =>
      cases hd : sdisk q with
      | none =>
        simp only [AssetManager.load_shader, hc, hd, Prod.mk.injEq] at heq2
        obtain ⟨hv, _, _⟩ := heq2
        cases hv
      | some src =>
        simp only [AssetManager.load_shader, hc, hd, Prod.mk.injEq] at heq2
        obtain ⟨hv, _, _⟩ := heq2
        have hv' : g1.nextId = h2 := by cases hv; rfl
        have hlt : h1 < g1.nextId :=
          hwf1.2 h1 (List.mem_append_right _ (List.mem_map_of_mem Prod.snd hmem1))
        omega

theorem c2_asset_cache_identity_witness :
    (∀ (h : Nat) (am1 : AssetManager) (g1 : Gpu),
      AssetManager.new.load_texture ⟨0, 0⟩ allDisk "a.png" = (.ok h, am1, g1) →
      am1.load_texture g1 allDisk "a.png" = (.ok h, am1, g1)) ∧
    (∀ (h1 : Nat) (am1 : AssetManager) (g1 : Gpu) (h2 : Nat) (am2 : AssetManager) (g2 : Gpu),
      AssetManager.new.load_texture ⟨0, 0⟩ allDisk "a.png" = (.ok h1, am1, g1) →
      am1.load_texture g1 allDisk "b.png" = (.ok h2, am2, g2) → h1 ≠ h2) ∧
    (∀ (h : Nat) (am1 : AssetManager) (g1 : Gpu),
      AssetManager.new.load_shader ⟨0, 0⟩ allSDisk "a.png" = (.ok h, am1, g1) →
      am1.load_shader g1 allSDisk "a.png" = (.ok h, am1, g1)) ∧
    (∀ (h1 : Nat) (am1 : AssetManager) (g1 : Gpu) (h2 : Nat) (am2 : AssetManager) (g2 : Gpu),
      AssetManager.new.load_shader ⟨0, 0⟩ allSDisk "a.png" = (.ok h1, am1, g1) →
      am1.load_shader g1 allSDisk "b.png" = (.ok h2, am2, g2) → h1 ≠ h2) :=
  c2_asset_cache_identity AssetManager.new ⟨0, 0⟩ allDisk allSDisk "a.png" "b.png"
    (by constructor <;> simp [AssetManager.wf, AssetManager.ids, AssetManager.new])
    (by decide)



/-- Claim C3: for every world (whose drawables carry ordinary, non-NaN `z`
values, the case in which the sort returns), `query_drawables_with_z`
returns a permutation of `query_drawables` sorted ascending by `z`; a
drawable pair arises exactly from an entity present in both component maps;
and an entity missing its sprite (resp. its transform) contributes nothing
to either query — removing its entries changes neither result
(`ecs.rs:59-78`). -/
theorem c3_query_drawables_with_z (w : World)
    (hz : ∀ d ∈ w.query_drawables, d.1.z.isSome) :
    (∃ l, w.query_drawables_with_z = some l ∧ l.Perm w.query_drawables ∧
      l.Sorted zle) ∧
    (∀ d, d ∈ w.query_drawables ↔ ∃ e t s, (e, t) ∈ w.transforms ∧
      alookup w.sprites e = some s ∧ d = (t, s.texture)) ∧
    (∀ e, alookup w.sprites e = none →
      World.query_drawables { w with transforms := removeKey w.transforms e } =
        w.query_drawables) ∧
    (∀ e, alookup w.transforms e = none →
      World.query_drawables { w with sprites := removeKey w.sprites e } =
        w.query_drawables) := by
  refine ⟨sortByZ_spec _ hz, ?_, ?_, ?_⟩
  · intro d
    unfold World.query_drawables
    rw [List.mem_filterMap]
    constructor
    · rintro ⟨⟨e, t⟩, hmem, hf⟩
      rcases Option.map_eq_some'.mp hf with ⟨s, hs, hd⟩
      exact ⟨e, t, s, hmem, hs, hd.symm⟩
    · rintro ⟨e, t, s, hmem, hs, rfl⟩
      exact ⟨(e, t), hmem, by rw [hs]; rfl⟩
  · exact fun e he => query_drawables_removeKey_transforms w e he
  · exact fun e he => query_drawables_removeKey_sprites w e he

theorem c3_query_drawables_with_z_witness :
    c3World.query_drawables_with_z =
      some [(⟨100, 100, 200, 200, some (1/5)⟩, 5),
            (⟨150, 150, 200, 200, some (1/2)⟩, 5),
            (⟨200, 200, 200, 200, some (4/5)⟩, 6)] ∧
    (∃ l, c3World.query_drawables_with_z = some l ∧
      l.Perm c3World.query_drawables ∧ l.Sorted zle) :=
  ⟨by
    norm_num [c3World, World.query_drawables_with_z, World.query_drawables, alookup,
      sortByZ, orderedInsertM, zCmp, Fl.fcmp]
    decide,
   (c3_query_drawables_with_z c3World (by decide)).1⟩

/-- Claim C9: if every drawable's `z` is an ordinary (non-NaN) value, the
sort inside `query_drawables_with_z` and the re-sort inside
`draw_sprites_batched` both complete without panicking; but on a world
containing a drawable with NaN `z` next to another drawable,
`query_drawables_with_z` panics (the `unwrap` of `partial_cmp` fails,
`ecs.rs:76`), so NaN `z` at the public interface aborts instead of
returning a result. -/
theorem c9_nan_z_panics (w : World)
    (hz : ∀ d ∈ w.query_drawables, d.1.z.isSome) :
    (w.query_drawables_with_z.isSome ∧ w.dsbSorted.isSome) ∧
    nanWorld.query_drawables_with_z = none := by
  constructor
  · obtain ⟨l, hsort, hperm, _⟩ := sortByZ_spec _ hz
    have h1 : w.query_drawables_with_z = some l := hsort
    constructor
    · rw [h1]
      rfl
    · have hz' : ∀ x ∈ l, x.1.z.isSome := fun x hx => hz x (hperm.mem_iff.mp hx)
      obtain ⟨l2, hsort2, _, _⟩ := sortByZ_spec l hz'
      unfold World.dsbSorted
      rw [h1]
      simp [hsort2]
  · decide

theorem c9_nan_z_panics_witness :
    (c3World.query_drawables_with_z.isSome ∧ c3World.dsbSorted.isSome) ∧
    nanWorld.query_drawables_with_z = none :=
  c9_nan_z_panics c3World (by decide)




/-- Claim C1: evaluation at the failing input. The claim predicts that the
six indices of the i-th quad *within a batch* are `4i, …` (restarting at 0
for each batch), but `vertex_count_total` (`renderer.rs:631, 656-662`) is
global and never reset per batch: for a frame of two one-quad batches the
second batch's quad gets indices `[4,5,6,6,7,4]`, not `[0,1,2,2,3,0]` —
even though its draw call binds a vertex-buffer slice of only 4 vertices
starting at byte offset 64 (`renderer.rs:664-676, 715`), for which every
one of those index values is out of range. -/
theorem c1_index_pattern_global :
    buildFrame c1Drawables = some c1Frame ∧
    c1Frame.indices = [0, 1, 2, 2, 3, 0, 4, 5, 6, 6, 7, 4] ∧
    (c1Frame.drawCalls.map fun dc =>
      (dc.vertex_offset, dc.vertex_count, dc.index_offset, dc.index_count)) =
      [(0, 4, 0, 6), (64, 4, 12, 6)] ∧
    c1Frame.indices.drop 6 = [4, 5, 6, 6, 7, 4] ∧
    (∀ i ∈ c1Frame.indices.drop 6, 4 ≤ i) ∧
    c1Frame.indices.drop 6 ≠ [0, 1, 2, 2, 3, 0] := by
  refine ⟨?_, rfl, rfl, rfl, by decide, by decide⟩
  norm_num [c1Drawables, c1Frame, buildFrame, makeBatches, makeBatchesAux,
    processBatch, pushQuad, u16add, List.foldlM]

/-- Claim C4: the batcher groups the z-sorted drawables into maximal
contiguous runs keyed by texture identity: three consecutive drawables on
texture `k1` followed by one on `k2 ≠ k1` yield exactly two batches, the
first with 3 entries (12 vertices, 18 indices), the second with 1 entry
(4 vertices, 6 indices); and two non-adjacent drawables sharing `k1` are
emitted as separate batches (`renderer.rs:586-605, 664-677`). -/
theorem c4_batch_contiguity (t1 t2 t3 t4 : Transform) (k1 k2 : Nat)
    (hk : k1 ≠ k2) :
    makeBatches [(t1, k1), (t2, k1), (t3, k1), (t4, k2)] =
      [⟨k1, [(t1, k1), (t2, k1), (t3, k1)]⟩, ⟨k2, [(t4, k2)]⟩] ∧
    buildFrame [(t1, k1), (t2, k1), (t3, k1), (t4, k2)] =
      some (c4Frame t1 t2 t3 t4 k1 k2) ∧
    (c4Frame t1 t2 t3 t4 k1 k2).drawCalls.map
      (fun dc => (dc.vertex_count, dc.index_count)) = [(12, 18), (4, 6)] ∧
    (c4Frame t1 t2 t3 t4 k1 k2).vertices.length = 16 ∧
    (c4Frame t1 t2 t3 t4 k1 k2).indices.length = 24 ∧
    makeBatches [(t1, k1), (t4, k2), (t2, k1)] =
      [⟨k1, [(t1, k1)]⟩, ⟨k2, [(t4, k2)]⟩, ⟨k1, [(t2, k1)]⟩] := by
  refine ⟨?_, ?_, rfl, rfl, rfl, ?_⟩
  · simp [makeBatches, makeBatchesAux, Ne.symm hk]
  · simp [c4Frame, buildFrame, makeBatches, makeBatchesAux, Ne.symm hk,
      processBatch, pushQuad, u16add, List.foldlM]
  · simp [makeBatches, makeBatchesAux, Ne.symm hk, hk]

theorem c4_batch_contiguity_witness :
    makeBatches [(t0, 1), (t0, 1), (t0, 1), (t0, 2)] =
      [⟨1, [(t0, 1), (t0, 1), (t0, 1)]⟩, ⟨2, [(t0, 2)]⟩] ∧
    buildFrame [(t0, 1), (t0, 1), (t0, 1), (t0, 2)] =
      some (c4Frame t0 t0 t0 t0 1 2) ∧
    (c4Frame t0 t0 t0 t0 1 2).drawCalls.map
      (fun dc => (dc.vertex_count, dc.index_count)) = [(12, 18), (4, 6)] ∧
    (c4Frame t0 t0 t0 t0 1 2).vertices.length = 16 ∧
    (c4Frame t0 t0 t0 t0 1 2).indices.length = 24 ∧
    makeBatches [(t0, 1), (t0, 2), (t0, 1)] =
      [⟨1, [(t0, 1)]⟩, ⟨2, [(t0, 2)]⟩, ⟨1, [(t0, 1)]⟩] :=
  c4_batch_contiguity t0 t0 t0 t0 1 2 (by decide)
